import Mathlib

/-!
# Verification of `colorsort` (`src/colorsort/analyzed_image.py`)

A shallow embedding of the dominant-color analysis and collection-sorting
code of the `colorsort` repository, together with theorems settling the
specification claims about it.

Conventions of the embedding:
* Python lists become Lean `List`s; 3-component pixels become triples of `Nat`.
* Python's stable ascending `list.sort(key=...)` / `sorted(...)` become
  `List.insertionSort` under the corresponding decidable total preorder
  (insertion sort is *the* stable sort: its output is sorted and keeps
  tied elements in their original order, exactly as CPython guarantees).
* Code that can raise an exception is embedded in `Except String`.
* `collections.deque` rotation (repeated `append(popleft())`) becomes the
  explicit loop `rotLoop`.
* Helper modules of the repository that are not under `src/`
  (`colorsort.util`, `colorsort.analysis`, `colorsort.heuristics`) are
  modelled from the specification; each such definition carries a doc
  comment starting with `Modelled from the spec:`.
-/

namespace ColorsortSpec

/-- An HSV pixel / color triple `(hue, saturation, value)`. -/
abbrev HSV : Type := Nat × Nat × Nat

/-- An RGB pixel / color triple `(red, green, blue)`. -/
abbrev RGB : Type := Nat × Nat × Nat

/-- The `util.DominantColorAlgorithm` enum (`HUE_DIST` / `KMEANS`). -/
inductive DominantColorAlgorithm : Type
  | HUE_DIST
  | KMEANS
deriving DecidableEq, Repr

/-- Modelled from the spec: `util.round_to_int` applied to `np.median` of a
channel (`colorsort.util` is not under `src/`).  The spec asks for "the
*median* ... of the saturation/value channels of pixels in that bucket,
rounded to nearest integer": sort the samples; an odd count takes the middle
sample, an even count takes the mean of the two middle samples rounded to the
nearest integer (halves round up). -/
def medianRound (xs : List Nat) : Nat :=
  let s := List.insertionSort (· ≤ ·) xs
  let n := s.length
  if n % 2 = 1 then s.getD (n / 2) 0
  else (s.getD (n / 2 - 1) 0 + s.getD (n / 2) 0 + 1) / 2

/-- One step of hue bucketing: append the pixel to the bucket keyed by its
hue, or open a new bucket at the end when the hue is seen first. -/
def addToBucket : List (Nat × List HSV) → HSV → List (Nat × List HSV)
  | [], px => [(px.1, [px])]
  | (h, ps) :: rest, px =>
      if px.1 = h then (h, ps ++ [px]) :: rest
      else (h, ps) :: addToBucket rest px

/-- Modelled from the spec: `heuristics.compute_hue_dist`
(`colorsort.heuristics` is not under `src/`).  Per the spec it buckets
"every pixel by its hue channel value into a HueBucket keyed by exact hue",
a "mapping from integer hue value to the set of HSV pixels observed at that
hue"; a Python dict keeps keys in first-insertion order, so the bucket list
is in first-observation order and each bucket's pixels are in scan order. -/
def compute_hue_dist (pixels_hsv : List HSV) : List (Nat × List HSV) :=
  pixels_hsv.foldl addToBucket []

/-- The ordering used by `sorted(hue_dist.items(), key=lambda item:
len(item[1]), reverse=True)`: population (pixel count) descending; a stable
sort under it leaves ties in insertion order. -/
def bucketGE (a b : Nat × List HSV) : Prop := b.2.length ≤ a.2.length

instance : DecidableRel bucketGE := fun _ _ => Nat.decLe _ _

instance : IsTotal (Nat × List HSV) bucketGE :=
  ⟨fun a b => Nat.le_total b.2.length a.2.length⟩

instance : IsTrans (Nat × List HSV) bucketGE :=
  ⟨fun _ _ _ h1 h2 => Nat.le_trans h2 h1⟩

/-- The body of the `for i in range(n_colors)` loop of
`get_dominant_colors_hue_dist`: emit the bucket's hue with the rounded
medians of its pixels' saturation and value channels, or `(hue, 0, 0)`
(with a logged warning) when the bucket holds no pixels. -/
def hue_bucket_hsv (bucket : Nat × List HSV) : HSV :=
  if bucket.2.length > 0 then
    (bucket.1,
     medianRound (bucket.2.map fun hsv => hsv.2.1),
     medianRound (bucket.2.map fun hsv => hsv.2.2))
  else (bucket.1, 0, 0)

/-- The `for i in range(n_colors)` loop itself: `hue_dist[i]` raises
`IndexError` when `i` is past the end of the ranked bucket list. -/
def collect_hue_colors (ranked : List (Nat × List HSV)) (i : Nat) :
    Nat → Except String (List HSV)
  | 0 => .ok []
  | m + 1 =>
      match ranked[i]? with
      | none => .error "IndexError: list index out of range"
      | some bucket =>
          (collect_hue_colors ranked (i + 1) m).map (hue_bucket_hsv bucket :: ·)

/-- Modelled from the spec: `util.normalize_8bit_hsv` (`colorsort.util` is
not under `src/`).  Per the spec's ColorTriple invariant, the hue "wraps
modulo 360 *before* normalization" to the 0-255 internal scale, and
"saturation/value are clamped 0-255". -/
def normalize_8bit_hsv (colors : List HSV) : List HSV :=
  colors.map fun c => ((c.1 % 360) * 255 / 360, min c.2.1 255, min c.2.2 255)

/-- Modelled from the spec: the HSV→RGB half of the external "Color Space
Utilities" collaborator (`util.hsv_to_rgb`; `colorsort.util` is not under
`src/`).  The spec treats the conversion formula as an out-of-scope pure
math utility; a standard 8-bit sector conversion is used, applied per
triple. -/
def hsv_to_rgb_pixel (c : HSV) : RGB :=
  let h := c.1
  let s := c.2.1
  let v := c.2.2
  if s = 0 then (v, v, v)
  else
    let region := h * 6 / 256
    let f := h * 6 % 256
    let p := v * (255 - s) / 255
    let q := v * (255 * 256 - s * f) / (255 * 256)
    let t := v * (255 * 256 - s * (256 - f)) / (255 * 256)
    match region with
    | 0 => (v, t, p)
    | 1 => (q, v, p)
    | 2 => (p, v, t)
    | 3 => (p, q, v)
    | 4 => (t, p, v)
    | _ => (v, p, q)

/-- `util.hsv_to_rgb` over a list of colors (per-triple map). -/
def hsv_to_rgb (colors : List HSV) : List RGB :=
  colors.map hsv_to_rgb_pixel

/-- Modelled from the spec: the RGB→HSV half of the external "Color Space
Utilities" collaborator (`util.rgb_to_hsv`; `colorsort.util` is not under
`src/`).  Standard 8-bit conversion, applied per triple. -/
def rgb_to_hsv_pixel (c : RGB) : HSV :=
  let r := c.1
  let g := c.2.1
  let b := c.2.2
  let mx := max r (max g b)
  let mn := min r (min g b)
  let d : Int := (mx : Int) - (mn : Int)
  let h : Int :=
    if d = 0 then 0
    else if mx = r then (43 * ((g : Int) - (b : Int)) / d).emod 256
    else if mx = g then 85 + 43 * ((b : Int) - (r : Int)) / d
    else 171 + 43 * ((r : Int) - (g : Int)) / d
  let s := if mx = 0 then 0 else (mx - mn) * 255 / mx
  (h.toNat, s, mx)

/-- `util.rgb_to_hsv` over a list of colors (per-triple map). -/
def rgb_to_hsv (colors : List RGB) : List HSV :=
  colors.map rgb_to_hsv_pixel

/-- `AnalyzedImage.get_dominant_colors_hue_dist`: rank the hue buckets by
population descending (Python's `sorted` is stable), walk the first
`n_colors` of them emitting hue + median saturation/value, normalize to the
8-bit internal scale and convert to RGB.  Raises (embedded as `.error`)
when `n_colors` exceeds the number of populated buckets. -/
def get_dominant_colors_hue_dist (pixels_hsv : List HSV) (n_colors : Nat) :
    Except String (List RGB × List HSV) :=
  let hue_dist := List.insertionSort bucketGE (compute_hue_dist pixels_hsv)
  (collect_hue_colors hue_dist 0 n_colors).map fun raw =>
    let dominant_colors_hsv := normalize_8bit_hsv raw
    (hsv_to_rgb dominant_colors_hsv, dominant_colors_hsv)

/-- The retained clustering artifact: the fitted cluster centers
(`model.cluster_centers_`) and the per-pixel labels from fitting. -/
structure KMeansModel : Type where
  cluster_centers : List RGB
  labels : List Nat
deriving DecidableEq, Repr

/-- Squared Euclidean distance between two RGB points (channel-wise, using
truncated subtraction symmetrically). -/
def sqDist (a b : RGB) : Nat :=
  let d := fun x y : Nat => (max x y - min x y) * (max x y - min x y)
  d a.1 b.1 + d a.2.1 b.2.1 + d a.2.2 b.2.2

/-- Walk the remaining centers keeping the index of the closest one seen so
far; earlier centers win ties. -/
def nearestCenterAux (p : RGB) : List RGB → Nat → Nat → Nat → Nat
  | [], _, best, _ => best
  | c :: rest, i, best, bestD =>
      if sqDist c p < bestD then nearestCenterAux p rest (i + 1) i (sqDist c p)
      else nearestCenterAux p rest (i + 1) best bestD

/-- Modelled from the spec: the external clustering backend's
`predict(points) -> assignment` capability — "nearest-center assignment"
of each point to one of the fitted centers (first center on ties). -/
def kmeans_predict (centers : List RGB) (points : List RGB) : List Nat :=
  points.map fun p =>
    match centers with
    | [] => 0
    | c :: rest => nearestCenterAux p rest 1 0 (sqDist c p)

/-- Modelled from the spec: `analysis.fit_and_predict`
(`colorsort.analysis` is not under `src/`).  The external centroid
clustering routine is out of the spec's scope; only its contract is
modelled — "K clusters = N", "obtain N cluster centers in RGB space",
"retain the per-pixel cluster assignment", and the guarantee that "exactly
N dominant colors are always produced".  Centers are concretely the first
N distinct pixel colors, padded with black when the data holds fewer;
assignments are nearest-center. -/
def fit_and_predict (points : List RGB) (k : Nat) : KMeansModel × List Nat :=
  let seen := points.dedup.take k
  let centers := seen ++ List.replicate (k - seen.length) (0, 0, 0)
  let labels := kmeans_predict centers points
  ({ cluster_centers := centers, labels := labels }, labels)

/-- The ordering used to rank clusters: population descending, stable. -/
def histGE (a b : RGB × Nat) : Prop := b.2 ≤ a.2

instance : DecidableRel histGE := fun _ _ => Nat.decLe _ _

instance : IsTotal (RGB × Nat) histGE := ⟨fun a b => Nat.le_total b.2 a.2⟩

instance : IsTrans (RGB × Nat) histGE := ⟨fun _ _ _ h1 h2 => Nat.le_trans h2 h1⟩

/-- Modelled from the spec: `analysis.build_histogram_from_clusters`
(`colorsort.analysis` is not under `src/`).  Per the spec: "for each
cluster, its population count; order clusters by population descending
(most populous cluster = single most dominant color)". -/
def build_histogram_from_clusters (model : KMeansModel) : List (RGB × Nat) :=
  List.insertionSort histGE
    (model.cluster_centers.enum.map fun ic => (ic.2, model.labels.count ic.1))

/-- `AnalyzedImage.get_dominant_colors_kmeans`: fit and predict, build the
population histogram, emit the cluster centers in rank order as RGB and
convert them to HSV.  (`np.around` on the integral centers of this model is
the identity.)  Returns the retained artifacts (`self.model`,
`self.predicted`) together with the two color lists. -/
def get_dominant_colors_kmeans (pixels_rgb : List RGB) (n_colors : Nat) :
    KMeansModel × List Nat × List RGB × List HSV :=
  let fp := fit_and_predict pixels_rgb n_colors
  let hist := build_histogram_from_clusters fp.1
  let dominant_colors_rgb := hist.map fun ch => ch.1
  let dominant_colors_hsv := rgb_to_hsv dominant_colors_rgb
  (fp.1, fp.2, dominant_colors_rgb, dominant_colors_hsv)

/-- Modelled from the spec: the N-Heuristic Selector (`colorsort.heuristics`
is not under `src/`): it "inspects the hue distribution (e.g., counts
distinct/significant hue values) and returns a small positive integer" and
"Must always return ≥ 1". -/
def auto_n_heuristic (pixels_hsv : List HSV) : Nat :=
  max (compute_hue_dist pixels_hsv).length 1

/-- The state of a constructed `AnalyzedImage`: metadata, the (resized)
pixel buffer, the chosen algorithm and color count, the computed dominant
color lists, and the optional clustering artifact (`self.model` /
`self.predicted`, present exactly when KMEANS ran). -/
structure AnalyzedImage : Type where
  name : String
  width : Nat
  height : Nat
  pixels_rgb : List RGB
  dominant_color_algorithm : DominantColorAlgorithm
  n_colors : Nat
  dominant_colors_rgb : List RGB
  dominant_colors_hsv : List HSV
  fitted : Option (KMeansModel × List Nat)
deriving DecidableEq, Repr

/-- `AnalyzedImage.__init__` after decode/resize (image I/O is an external
collaborator): choose `n` (a zero/absent count invokes the heuristic), then
dispatch on the algorithm tag; `HUE_DIST` may raise, `KMEANS` additionally
retains the fitted model and prediction. -/
def AnalyzedImage.init (name : String) (width height : Nat)
    (pixels_rgb : List RGB) (pixels_hsv : List HSV)
    (dominant_color_algorithm : DominantColorAlgorithm) (n_colors : Nat) :
    Except String AnalyzedImage :=
  let n := if n_colors = 0 then auto_n_heuristic pixels_hsv else n_colors
  match dominant_color_algorithm with
  | .HUE_DIST =>
      (get_dominant_colors_hue_dist pixels_hsv n).map fun res =>
        { name := name, width := width, height := height,
          pixels_rgb := pixels_rgb, dominant_color_algorithm := .HUE_DIST,
          n_colors := n, dominant_colors_rgb := res.1,
          dominant_colors_hsv := res.2, fitted := none }
  | .KMEANS =>
      let res := get_dominant_colors_kmeans pixels_rgb n
      .ok { name := name, width := width, height := height,
            pixels_rgb := pixels_rgb, dominant_color_algorithm := .KMEANS,
            n_colors := n, dominant_colors_rgb := res.2.2.1,
            dominant_colors_hsv := res.2.2.2, fitted := some (res.1, res.2.1) }

/-- `AnalyzedImage.get_dominant_colors(hsv=...)`. -/
def AnalyzedImage.get_dominant_colors (img : AnalyzedImage) (hsv : Bool) :
    List (Nat × Nat × Nat) :=
  if hsv then img.dominant_colors_hsv else img.dominant_colors_rgb

/-- `AnalyzedImage.get_dominant_color(hsv=...)`: the first (most dominant)
entry.  Python indexes `[0]`, which presupposes a nonempty result list — a
property every constructed image has; `headI`'s default is never consulted
on the constructed domain. -/
def AnalyzedImage.get_dominant_color (img : AnalyzedImage) (hsv : Bool) :
    Nat × Nat × Nat :=
  (img.get_dominant_colors hsv).headI

/-- `AnalyzedImage.is_bw`: saturation of the most dominant color is 0. -/
def AnalyzedImage.is_bw (img : AnalyzedImage) : Bool :=
  (img.get_dominant_color true).2.1 == 0

/-- `AnalyzedImage.get_sort_metric`: the dominant hue shifted by 90 modulo
360. -/
def AnalyzedImage.get_sort_metric (img : AnalyzedImage) : Nat :=
  ((img.get_dominant_color true).1 + 90) % 360

/-- `AnalyzedImage.get_remapped_image(other=...)`: requires the fitted
clustering artifact (`self.model`; an image analyzed with another strategy
has none, so Python raises `AttributeError`).  Predicts labels for the
input pixels (the retained `self.predicted` when `other` is absent),
replaces each pixel by its cluster's center, and reshapes to
`(self.height, self.width, 3)` — `numpy` raises when the pixel count does
not match.  The result is `(dimensions, pixel list)`. -/
def AnalyzedImage.get_remapped_image (img : AnalyzedImage)
    (other : Option AnalyzedImage) : Except String ((Nat × Nat) × List RGB) :=
  match img.fitted with
  | none => .error "AttributeError: 'AnalyzedImage' object has no attribute 'model'"
  | some fitted =>
      let target_colors := fitted.1.cluster_centers
      let other_predicted :=
        match other with
        | none => fitted.2
        | some o => kmeans_predict target_colors o.pixels_rgb
      let remapped := other_predicted.map fun i => target_colors.getD i (0, 0, 0)
      if remapped.length = img.height * img.width then
        .ok ((img.height, img.width), remapped)
      else .error "ValueError: cannot reshape array"

/-- The partition loop of `AnalyzedImage.colorsort`: append each image to
`bw` when `is_bw()` holds, else to `color`; returns `(color, bw)`. -/
def partitionLoop (image_reps : List AnalyzedImage) :
    List AnalyzedImage × List AnalyzedImage :=
  image_reps.foldl
    (fun acc img =>
      if img.is_bw then (acc.1, acc.2 ++ [img]) else (acc.1 ++ [img], acc.2))
    ([], [])

/-- The sort key of the color group: `(get_sort_metric(),
dominant value in HSV)`. -/
def colorKey (img : AnalyzedImage) : Nat × Nat :=
  (img.get_sort_metric, (img.get_dominant_color true).2.2)

/-- Python's ascending comparison of the key tuples: lexicographic. -/
def colorLE (a b : AnalyzedImage) : Prop :=
  (colorKey a).1 < (colorKey b).1 ∨
    ((colorKey a).1 = (colorKey b).1 ∧ (colorKey a).2 ≤ (colorKey b).2)

instance : DecidableRel colorLE := fun a b => by unfold colorLE; exact inferInstance

instance : IsTotal AnalyzedImage colorLE :=
  ⟨fun a b => by unfold colorLE; omega⟩

instance : IsTrans AnalyzedImage colorLE :=
  ⟨fun _ _ _ h1 h2 => by unfold colorLE at *; omega⟩

/-- The sort key of the monochrome group: dominant value in HSV,
ascending. -/
def valueLE (a b : AnalyzedImage) : Prop :=
  (a.get_dominant_color true).2.2 ≤ (b.get_dominant_color true).2.2

instance : DecidableRel valueLE := fun a b => by unfold valueLE; exact inferInstance

instance : IsTotal AnalyzedImage valueLE :=
  ⟨fun a b => Nat.le_total _ _⟩

instance : IsTrans AnalyzedImage valueLE :=
  ⟨fun _ _ _ h1 h2 => Nat.le_trans h1 h2⟩

/-- The anchor scan (`while not color[starting_index].image_path.name ==
anchor_image: starting_index += 1`): index of the first matching entry, or
`none` when the walk runs off the end (Python's caught `IndexError`). -/
def scanAnchor (color : List AnalyzedImage) (anchor_image : String) : Option Nat :=
  match color with
  | [] => none
  | img :: rest =>
      if img.name = anchor_image then some 0
      else (scanAnchor rest anchor_image).map (· + 1)

/-- The `starting_index` computed by `colorsort`: 0 when no anchor is given
(Python's falsy `None` or `""`), otherwise the scan result, falling back to
0 when the anchor is not found. -/
def startingIndex (color : List AnalyzedImage) : Option String → Nat
  | none => 0
  | some a => if a = "" then 0 else (scanAnchor color a).getD 0

/-- One `color.append(color.popleft())` step on the deque. -/
def rotOnce {α : Type} : List α → List α
  | [] => []
  | x :: xs => xs ++ [x]

/-- The rotation loop `for _ in range(starting_index)`. -/
def rotLoop {α : Type} : Nat → List α → List α
  | 0, l => l
  | n + 1, l => rotLoop n (rotOnce l)

/-- `AnalyzedImage.colorsort`: partition into color and black-and-white
groups, sort the color group by `(sort metric, value)` and the
black-and-white group by value (both ascending, stable), rotate the color
group to the anchor when one is found, and return `(combined, color, bw)`. -/
def colorsort (image_reps : List AnalyzedImage) (anchor_image : Option String) :
    List AnalyzedImage × List AnalyzedImage × List AnalyzedImage :=
  let part := partitionLoop image_reps
  let sorted_color := List.insertionSort colorLE part.1
  let bw := List.insertionSort valueLE part.2
  let starting_index := startingIndex sorted_color anchor_image
  let color := rotLoop starting_index sorted_color
  (color ++ bw, color, bw)

/-- Whether `colorsort` executes its `print(f"Starting image ... not
found!")` report: a truthy anchor whose scan ran off the end of the sorted
color sequence. -/
def colorsort_not_found_reported (image_reps : List AnalyzedImage) :
    Option String → Bool
  | none => false
  | some a =>
      a != "" &&
        (scanAnchor (List.insertionSort colorLE (partitionLoop image_reps).1) a).isNone

/-! ### Concrete sample images used to evaluate the development -/

/-- A color image: dominant hue 10 (sort metric 100), value 50. -/
def imgA : AnalyzedImage :=
  { name := "a", width := 4, height := 3, pixels_rgb := [(200, 30, 40)],
    dominant_color_algorithm := .HUE_DIST, n_colors := 1,
    dominant_colors_rgb := [(200, 30, 40)],
    dominant_colors_hsv := [(10, 200, 50)], fitted := none }

/-- A color image: dominant hue 50 (sort metric 140), value 60. -/
def imgB : AnalyzedImage :=
  { name := "b", width := 4, height := 3, pixels_rgb := [(180, 160, 20)],
    dominant_color_algorithm := .HUE_DIST, n_colors := 1,
    dominant_colors_rgb := [(180, 160, 20)],
    dominant_colors_hsv := [(50, 180, 60)], fitted := none }

/-- A color image with the same sort key as `imgB` but a different name,
exercising stability on ties. -/
def imgB2 : AnalyzedImage :=
  { name := "b2", width := 5, height := 2, pixels_rgb := [(181, 161, 21)],
    dominant_color_algorithm := .HUE_DIST, n_colors := 1,
    dominant_colors_rgb := [(181, 161, 21)],
    dominant_colors_hsv := [(50, 170, 60)], fitted := none }

/-- A color image: dominant hue 300 (sort metric 30), value 20. -/
def imgC : AnalyzedImage :=
  { name := "c", width := 3, height := 4, pixels_rgb := [(60, 10, 60)],
    dominant_color_algorithm := .HUE_DIST, n_colors := 1,
    dominant_colors_rgb := [(60, 10, 60)],
    dominant_colors_hsv := [(300, 100, 20)], fitted := none }

/-- A monochrome image: dominant saturation 0, value 10. -/
def imgM : AnalyzedImage :=
  { name := "m", width := 2, height := 2, pixels_rgb := [(10, 10, 10)],
    dominant_color_algorithm := .HUE_DIST, n_colors := 1,
    dominant_colors_rgb := [(10, 10, 10)],
    dominant_colors_hsv := [(120, 0, 10)], fitted := none }

/-- The image produced by `AnalyzedImage.init "w" 1 1 [(9,9,9)] [(5,10,20)]
HUE_DIST 1` (one pixel of hue 5, saturation 10, value 20). -/
def hueImg : AnalyzedImage :=
  { name := "w", width := 1, height := 1, pixels_rgb := [(9, 9, 9)],
    dominant_color_algorithm := .HUE_DIST, n_colors := 1,
    dominant_colors_rgb := [(20, 19, 19)],
    dominant_colors_hsv := [(3, 10, 20)], fitted := none }

/-- The image produced by `AnalyzedImage.init "s" 2 1 [(0,0,0),(255,0,0)]
[(0,0,0),(0,255,255)] KMEANS 2`: a 2-wide, 1-high two-pixel image. -/
def kmSelf : AnalyzedImage :=
  { name := "s", width := 2, height := 1, pixels_rgb := [(0, 0, 0), (255, 0, 0)],
    dominant_color_algorithm := .KMEANS, n_colors := 2,
    dominant_colors_rgb := [(0, 0, 0), (255, 0, 0)],
    dominant_colors_hsv := [(0, 0, 0), (0, 255, 255)],
    fitted := some ({ cluster_centers := [(0, 0, 0), (255, 0, 0)], labels := [0, 1] }, [0, 1]) }

/-- The image produced by `AnalyzedImage.init "o" 1 2 [(0,0,0),(255,0,0)]
[(0,0,0),(0,255,255)] KMEANS 2`: the same two pixels as `kmSelf` but laid
out 1-wide, 2-high. -/
def kmOther : AnalyzedImage :=
  { name := "o", width := 1, height := 2, pixels_rgb := [(0, 0, 0), (255, 0, 0)],
    dominant_color_algorithm := .KMEANS, n_colors := 2,
    dominant_colors_rgb := [(0, 0, 0), (255, 0, 0)],
    dominant_colors_hsv := [(0, 0, 0), (0, 255, 255)],
    fitted := some ({ cluster_centers := [(0, 0, 0), (255, 0, 0)], labels := [0, 1] }, [0, 1]) }

/-- The image produced by `AnalyzedImage.init "t" 1 1 [(7,7,7)] [(0,0,7)]
KMEANS 1`: a single-pixel clustered image. -/
def kmTiny : AnalyzedImage :=
  { name := "t", width := 1, height := 1, pixels_rgb := [(7, 7, 7)],
    dominant_color_algorithm := .KMEANS, n_colors := 1,
    dominant_colors_rgb := [(7, 7, 7)],
    dominant_colors_hsv := [(0, 0, 7)],
    fitted := some ({ cluster_centers := [(7, 7, 7)], labels := [0] }, [0]) }

/-! ### Helper lemmas about the embedded operations -/

theorem partitionLoop_go (l c b : List AnalyzedImage) :
    List.foldl
      (fun acc img =>
        if img.is_bw then (acc.1, acc.2 ++ [img]) else (acc.1 ++ [img], acc.2))
      (c, b) l
      = (c ++ l.filter (fun i => !i.is_bw), b ++ l.filter (fun i => i.is_bw)) := by
  induction l generalizing c b with
  | nil => simp
  | cons img rest ih =>
    by_cases h : img.is_bw
    · simp [h, ih, List.filter_cons, List.append_assoc]
    · simp [h, ih, List.filter_cons, List.append_assoc]

/-- The partition loop is the pair of `is_bw` filters. -/
theorem partitionLoop_eq (l : List AnalyzedImage) :
    partitionLoop l = (l.filter (fun i => !i.is_bw), l.filter (fun i => i.is_bw)) := by
  simpa [partitionLoop] using partitionLoop_go l [] []

/-- The deque loop `for _ in range(n): color.append(color.popleft())` is
`List.rotate` by `n`. -/
theorem rotLoop_eq_rotate {α : Type} : ∀ (n : Nat) (l : List α), rotLoop n l = l.rotate n
  | 0, _ => by simp [rotLoop]
  | n + 1, [] => by simp [rotLoop, rotOnce, rotLoop_eq_rotate n []]
  | n + 1, a :: t => by
      simp only [rotLoop, rotOnce]
      rw [rotLoop_eq_rotate n (t ++ [a]), List.rotate_cons_succ]

/-- The anchor scan runs off the end exactly when no entry's name matches. -/
theorem scanAnchor_eq_none_iff (l : List AnalyzedImage) (a : String) :
    scanAnchor l a = none ↔ ∀ img ∈ l, img.name ≠ a := by
  induction l with
  | nil => simp [scanAnchor]
  | cons img rest ih =>
    by_cases h : img.name = a
    · simp [scanAnchor, h]
    · simp [scanAnchor, h, ih]

/-- A successful anchor scan returns the index of an entry whose name is
the anchor. -/
theorem scanAnchor_some_getElem :
    ∀ (l : List AnalyzedImage) (a : String) (k : Nat), scanAnchor l a = some k →
      ∃ img, l[k]? = some img ∧ img.name = a
  | [], _, _, h => by simp [scanAnchor] at h
  | img :: rest, a, k, h => by
      by_cases hn : img.name = a
      · simp only [scanAnchor, if_pos hn, Option.some.injEq] at h
        exact h ▸ ⟨img, by simp, hn⟩
      · simp only [scanAnchor, if_neg hn, Option.map_eq_some'] at h
        obtain ⟨k', hk', rfl⟩ := h
        obtain ⟨i, hi, hname⟩ := scanAnchor_some_getElem rest a k' hk'
        exact ⟨i, by simpa using hi, hname⟩

/-- A successful anchor scan returns an in-range index. -/
theorem scanAnchor_some_lt (l : List AnalyzedImage) (a : String) (k : Nat)
    (h : scanAnchor l a = some k) : k < l.length := by
  obtain ⟨img, hi, -⟩ := scanAnchor_some_getElem l a k h
  exact (List.getElem?_eq_some_iff.mp hi).1

/-- The hue-color loop raises `IndexError` as soon as the requested count
overruns the ranked bucket list. -/
theorem collect_hue_colors_error (ranked : List (Nat × List HSV)) :
    ∀ (m i : Nat), 0 < m → ranked.length < i + m →
      collect_hue_colors ranked i m = .error "IndexError: list index out of range"
  | 0, _, hm, _ => by omega
  | m + 1, i, _, h => by
      by_cases hi : i < ranked.length
      · have ih : collect_hue_colors ranked (i + 1) m
            = .error "IndexError: list index out of range" :=
          collect_hue_colors_error ranked m (i + 1) (by omega) (by omega)
        simp [collect_hue_colors, List.getElem?_eq_getElem hi, ih, Except.map]
      · have hnone : ranked[i]? = none :=
          @List.getElem?_eq_none _ ranked i (by omega)
        simp [collect_hue_colors, hnone]

/-- Within range, the hue-color loop emits exactly the images of the
buckets it walks. -/
theorem collect_hue_colors_ok (ranked : List (Nat × List HSV)) :
    ∀ (m i : Nat), i + m ≤ ranked.length →
      collect_hue_colors ranked i m = .ok (((ranked.drop i).take m).map hue_bucket_hsv)
  | 0, i, _ => by simp [collect_hue_colors]
  | m + 1, i, h => by
      have hi : i < ranked.length := by omega
      have ih := collect_hue_colors_ok ranked m (i + 1) (by omega)
      rw [List.drop_eq_getElem_cons hi]
      simp only [collect_hue_colors, List.getElem?_eq_getElem hi, ih, Except.map,
        List.take_succ_cons, List.map_cons]

/-- A successful hue-color loop emits exactly as many colors as it was
asked for. -/
theorem collect_hue_colors_length (ranked : List (Nat × List HSV)) :
    ∀ (m i : Nat) (raw : List HSV), collect_hue_colors ranked i m = .ok raw →
      raw.length = m
  | 0, i, raw, h => by
      simp only [collect_hue_colors, Except.ok.injEq] at h
      simp [← h]
  | m + 1, i, raw, h => by
      cases hi : ranked[i]? with
      | none => simp [collect_hue_colors, hi] at h
      | some b =>
          cases hrec : collect_hue_colors ranked (i + 1) m with
          | error e => simp [collect_hue_colors, hi, hrec, Except.map] at h
          | ok raw' =>
              simp only [collect_hue_colors, hi, hrec, Except.map,
                Except.ok.injEq] at h
              have := collect_hue_colors_length ranked m (i + 1) raw' hrec
              simp [← h, this]

/-- A successful hue-distance extraction returns `n` RGB and `n` HSV
colors. -/
theorem hue_dist_ok_lengths (pixels_hsv : List HSV) (n : Nat)
    (res : List RGB × List HSV)
    (h : get_dominant_colors_hue_dist pixels_hsv n = .ok res) :
    res.1.length = n ∧ res.2.length = n := by
  unfold get_dominant_colors_hue_dist at h
  cases hcol : collect_hue_colors
      (List.insertionSort bucketGE (compute_hue_dist pixels_hsv)) 0 n with
  | error e => simp [hcol, Except.map] at h
  | ok raw =>
      simp only [hcol, Except.map, Except.ok.injEq] at h
      have hlen := collect_hue_colors_length _ n 0 raw hcol
      rw [← h]
      simp [hsv_to_rgb, normalize_8bit_hsv, hlen]

/-- The modelled clustering always fits exactly `k` centers. -/
theorem fit_and_predict_centers_length (points : List RGB) (k : Nat) :
    (fit_and_predict points k).1.cluster_centers.length = k := by
  have hle : (points.dedup.take k).length ≤ k := by
    simp [List.length_take]
  simp only [fit_and_predict, List.length_append, List.length_replicate]
  omega

/-- The KMEANS extraction returns exactly `n` RGB and `n` HSV colors. -/
theorem kmeans_lengths (points : List RGB) (n : Nat) :
    (get_dominant_colors_kmeans points n).2.2.1.length = n ∧
      (get_dominant_colors_kmeans points n).2.2.2.length = n := by
  have hc := fit_and_predict_centers_length points n
  have hist : (build_histogram_from_clusters (fit_and_predict points n).1).length
      = n := by
    simp [build_histogram_from_clusters, List.length_insertionSort, hc]
  constructor
  · simp [get_dominant_colors_kmeans, hist]
  · simp [get_dominant_colors_kmeans, rgb_to_hsv, hist]

/-! ### Claim theorems -/

/-- C5: `get_sort_metric` returns `(dominant_hue + 90) mod 360`, and the
returned value always lies in `[0, 360)` (in particular for any dominant
hue in `[0, 360)`). -/
theorem C5_sort_metric (img : AnalyzedImage) :
    img.get_sort_metric = ((img.get_dominant_color true).1 + 90) % 360 ∧
      img.get_sort_metric < 360 :=
  ⟨rfl, Nat.mod_lt _ (by omega)⟩

/-- C3: whenever the requested color count exceeds the number of populated
hue buckets, `get_dominant_colors_hue_dist` performs an out-of-range index
access (`hue_dist[i]` raises an uncaught `IndexError`): the code neither
clamps nor signals a recoverable condition, contradicting the claim. -/
theorem C3_hue_dist_overrun_raises (pixels_hsv : List HSV) (n_colors : Nat)
    (h : (compute_hue_dist pixels_hsv).length < n_colors) :
    get_dominant_colors_hue_dist pixels_hsv n_colors
      = .error "IndexError: list index out of range" := by
  have hlen : (List.insertionSort bucketGE (compute_hue_dist pixels_hsv)).length
      < n_colors := by
    rwa [List.length_insertionSort]
  have := collect_hue_colors_error
    (List.insertionSort bucketGE (compute_hue_dist pixels_hsv)) n_colors 0
    (by omega) (by omega)
  simp [get_dominant_colors_hue_dist, this, Except.map]

/-- Witness for C3: the single-pixel buffer `[(5, 10, 20)]` has one
populated hue bucket, so requesting 2 colors raises. -/
theorem C3_hue_dist_overrun_raises_witness :
    (compute_hue_dist [((5 : Nat), 10, 20)]).length < 2 ∧
      get_dominant_colors_hue_dist [((5 : Nat), 10, 20)] 2
        = .error "IndexError: list index out of range" :=
  ⟨by decide, C3_hue_dist_overrun_raises [(5, 10, 20)] 2 (by decide)⟩

/-- C4: with `n` within the number of populated buckets, the hue-distance
extraction ranks buckets by population descending (stably over insertion
order), walks the top `n` in rank order emitting hue plus median
saturation/value per `hue_bucket_hsv`, and succeeds with exactly `n`
colors. -/
theorem C4_hue_dist_ranked_medians (pixels_hsv : List HSV) (n_colors : Nat)
    (h : n_colors ≤ (compute_hue_dist pixels_hsv).length) :
    let ranked := List.insertionSort bucketGE (compute_hue_dist pixels_hsv)
    let raw := (ranked.take n_colors).map hue_bucket_hsv
    get_dominant_colors_hue_dist pixels_hsv n_colors
        = .ok (hsv_to_rgb (normalize_8bit_hsv raw), normalize_8bit_hsv raw) ∧
      ranked.Sorted bucketGE ∧
      List.Perm ranked (compute_hue_dist pixels_hsv) ∧
      (∀ x y : Nat × List HSV, x.2.length = y.2.length →
        List.Sublist [x, y] (compute_hue_dist pixels_hsv) →
          List.Sublist [x, y] ranked) ∧
      raw.length = n_colors := by
  intro ranked raw
  have hlen : n_colors ≤ ranked.length := by
    simpa [ranked, List.length_insertionSort] using h
  have hcol : collect_hue_colors ranked 0 n_colors
      = .ok ((ranked.take n_colors).map hue_bucket_hsv) := by
    simpa using collect_hue_colors_ok ranked n_colors 0 (by omega)
  refine ⟨?_, List.sorted_insertionSort bucketGE _,
    List.perm_insertionSort bucketGE _, ?_, ?_⟩
  · simp [get_dominant_colors_hue_dist, hcol, Except.map, raw, ranked]
  · intro x y hxy hsub
    exact List.pair_sublist_insertionSort (le_of_eq hxy.symm) hsub
  · simp [raw, List.length_take, hlen]

/-- Witness for C4: three pixels populating two hue buckets, requesting
both. -/
theorem C4_hue_dist_ranked_medians_witness :
    2 ≤ (compute_hue_dist
        [((5 : Nat), 10, 20), ((9 : Nat), 1, 2), ((5 : Nat), 12, 30)]).length ∧
      get_dominant_colors_hue_dist
          [((5 : Nat), 10, 20), ((9 : Nat), 1, 2), ((5 : Nat), 12, 30)] 2
        = .ok
            (hsv_to_rgb (normalize_8bit_hsv
              (((List.insertionSort bucketGE (compute_hue_dist
                [((5 : Nat), 10, 20), ((9 : Nat), 1, 2), ((5 : Nat), 12, 30)])).take 2).map
                  hue_bucket_hsv)),
             normalize_8bit_hsv
              (((List.insertionSort bucketGE (compute_hue_dist
                [((5 : Nat), 10, 20), ((9 : Nat), 1, 2), ((5 : Nat), 12, 30)])).take 2).map
                  hue_bucket_hsv)) :=
  ⟨by decide,
    (C4_hue_dist_ranked_medians
      [(5, 10, 20), (9, 1, 2), (5, 12, 30)] 2 (by decide)).1⟩

/-- C9: a successfully constructed image has RGB and HSV dominant-color
sequences of the same length, both equal to the chosen color count, which
is at least 1. -/
theorem C9_dominant_color_lengths (name : String) (width height : Nat)
    (pixels_rgb : List RGB) (pixels_hsv : List HSV)
    (algo : DominantColorAlgorithm) (n_colors : Nat) (img : AnalyzedImage)
    (h : AnalyzedImage.init name width height pixels_rgb pixels_hsv algo n_colors
          = .ok img) :
    img.dominant_colors_rgb.length = img.dominant_colors_hsv.length ∧
      img.dominant_colors_hsv.length = img.n_colors ∧ 1 ≤ img.n_colors := by
  have hn : 1 ≤ (if n_colors = 0 then auto_n_heuristic pixels_hsv else n_colors) := by
    split
    · exact le_max_right _ _
    · omega
  cases algo with
  | HUE_DIST =>
      simp only [AnalyzedImage.init] at h
      cases hres : get_dominant_colors_hue_dist pixels_hsv
          (if n_colors = 0 then auto_n_heuristic pixels_hsv else n_colors) with
      | error e => simp [hres, Except.map] at h
      | ok res =>
          simp only [hres, Except.map, Except.ok.injEq] at h
          obtain ⟨h1, h2⟩ := hue_dist_ok_lengths _ _ _ hres
          subst h
          simp_all
  | KMEANS =>
      simp only [AnalyzedImage.init, Except.ok.injEq] at h
      obtain ⟨h1, h2⟩ := kmeans_lengths pixels_rgb
        (if n_colors = 0 then auto_n_heuristic pixels_hsv else n_colors)
      subst h
      simp_all

/-- Witness for C9: the one-pixel `HUE_DIST` construction of `hueImg`. -/
theorem C9_dominant_color_lengths_witness :
    AnalyzedImage.init "w" 1 1 [(9, 9, 9)] [(5, 10, 20)]
        DominantColorAlgorithm.HUE_DIST 1 = .ok hueImg ∧
      (hueImg.dominant_colors_rgb.length = hueImg.dominant_colors_hsv.length ∧
        hueImg.dominant_colors_hsv.length = hueImg.n_colors ∧
        1 ≤ hueImg.n_colors) :=
  ⟨rfl,
    C9_dominant_color_lengths "w" 1 1 [(9, 9, 9)] [(5, 10, 20)]
      DominantColorAlgorithm.HUE_DIST 1 hueImg rfl⟩

/-- C8: an image constructed with a strategy other than clustering retains
no fitted artifact, so `get_remapped_image` fails with the
attribute/invalid-operation error instead of returning a result. -/
theorem C8_remap_requires_clustering (name : String) (width height : Nat)
    (pixels_rgb : List RGB) (pixels_hsv : List HSV)
    (algo : DominantColorAlgorithm) (n_colors : Nat) (img : AnalyzedImage)
    (other : Option AnalyzedImage)
    (halgo : algo ≠ DominantColorAlgorithm.KMEANS)
    (h : AnalyzedImage.init name width height pixels_rgb pixels_hsv algo n_colors
          = .ok img) :
    img.get_remapped_image other
      = .error "AttributeError: 'AnalyzedImage' object has no attribute 'model'" := by
  cases algo with
  | KMEANS => exact absurd rfl halgo
  | HUE_DIST =>
      simp only [AnalyzedImage.init] at h
      cases hres : get_dominant_colors_hue_dist pixels_hsv
          (if n_colors = 0 then auto_n_heuristic pixels_hsv else n_colors) with
      | error e => simp [hres, Except.map] at h
      | ok res =>
          simp only [hres, Except.map, Except.ok.injEq] at h
          have hfit : img.fitted = none := by rw [← h]
          simp [AnalyzedImage.get_remapped_image, hfit]

/-- Witness for C8: remapping the `HUE_DIST`-constructed `hueImg` fails. -/
theorem C8_remap_requires_clustering_witness :
    AnalyzedImage.init "w" 1 1 [(9, 9, 9)] [(5, 10, 20)]
        DominantColorAlgorithm.HUE_DIST 1 = .ok hueImg ∧
      hueImg.get_remapped_image none
        = .error "AttributeError: 'AnalyzedImage' object has no attribute 'model'" :=
  ⟨rfl,
    C8_remap_requires_clustering "w" 1 1 [(9, 9, 9)] [(5, 10, 20)]
      DominantColorAlgorithm.HUE_DIST 1 hueImg none (by decide) rfl⟩

/-- C7: remapping reshapes to *this* image's `(height, width)` even when
`other` supplies the pixel data: with `kmSelf` 2 wide and 1 high and
`kmOther` 1 wide and 2 high, the output dimensions are `kmSelf`'s `(1, 2)`
rather than `kmOther`'s `(2, 1)`; and when the pixel counts differ
(`kmTiny` has 1 pixel, `kmOther` 2) the reshape raises. -/
theorem C7_remap_output_dimensions :
    AnalyzedImage.init "s" 2 1 [(0, 0, 0), (255, 0, 0)]
        [(0, 0, 0), (0, 255, 255)] DominantColorAlgorithm.KMEANS 2 = .ok kmSelf ∧
      AnalyzedImage.init "o" 1 2 [(0, 0, 0), (255, 0, 0)]
        [(0, 0, 0), (0, 255, 255)] DominantColorAlgorithm.KMEANS 2 = .ok kmOther ∧
      kmOther.height = 2 ∧ kmOther.width = 1 ∧
      kmSelf.get_remapped_image (some kmOther)
        = .ok ((1, 2), [(0, 0, 0), (255, 0, 0)]) ∧
      AnalyzedImage.init "t" 1 1 [(7, 7, 7)] [(0, 0, 7)]
        DominantColorAlgorithm.KMEANS 1 = .ok kmTiny ∧
      kmTiny.get_remapped_image (some kmOther)
        = .error "ValueError: cannot reshape array" := by
  exact ⟨rfl, rfl, rfl, rfl, rfl, rfl, rfl⟩


/-- `colorsort` in closed form: partition by `is_bw`, stable-sort each
group, rotate the color group by the computed starting index. -/
theorem colorsort_eq (images : List AnalyzedImage) (anchor : Option String) :
    colorsort images anchor =
      ((List.insertionSort colorLE (images.filter fun i => !i.is_bw)).rotate
          (startingIndex
            (List.insertionSort colorLE (images.filter fun i => !i.is_bw)) anchor)
        ++ List.insertionSort valueLE (images.filter fun i => i.is_bw),
       (List.insertionSort colorLE (images.filter fun i => !i.is_bw)).rotate
          (startingIndex
            (List.insertionSort colorLE (images.filter fun i => !i.is_bw)) anchor),
       List.insertionSort valueLE (images.filter fun i => i.is_bw)) := by
  simp [colorsort, partitionLoop_eq, rotLoop_eq_rotate]

/-- C1: `colorsort` partitions its input with the is-monochrome test,
stable-sorts the color group ascending by `(sort metric, value)` and the
monochrome group ascending by value, and returns the rotated color
sequence followed by the monochrome sequence, the rotated color sequence,
and the monochrome sequence. -/
theorem C1_colorsort_presentation (images : List AnalyzedImage)
    (anchor : Option String) :
    let colorGroup := images.filter fun i => !i.is_bw
    let monoGroup := images.filter fun i => i.is_bw
    let sortedColor := List.insertionSort colorLE colorGroup
    let sortedMono := List.insertionSort valueLE monoGroup
    let rotated := sortedColor.rotate (startingIndex sortedColor anchor)
    colorsort images anchor = (rotated ++ sortedMono, rotated, sortedMono) ∧
      sortedColor.Sorted colorLE ∧
      List.Perm sortedColor colorGroup ∧
      (∀ x y, colorKey x = colorKey y → List.Sublist [x, y] colorGroup →
        List.Sublist [x, y] sortedColor) ∧
      sortedMono.Sorted valueLE ∧
      List.Perm sortedMono monoGroup := by
  refine ⟨colorsort_eq images anchor,
    List.sorted_insertionSort colorLE _, List.perm_insertionSort colorLE _,
    ?_, List.sorted_insertionSort valueLE _, List.perm_insertionSort valueLE _⟩
  intro x y hk hsub
  exact List.pair_sublist_insertionSort
    (Or.inr ⟨congrArg Prod.fst hk, le_of_eq (congrArg Prod.snd hk)⟩) hsub

/-- Witness for C1: a five-image collection containing the tied pair
`imgB`, `imgB2`, whose relative order the stable color sort preserves. -/
theorem C1_colorsort_presentation_witness :
    colorKey imgB = colorKey imgB2 ∧
      List.Sublist [imgB, imgB2]
        (List.filter (fun i => !i.is_bw) [imgA, imgM, imgB, imgC, imgB2]) ∧
      List.Sublist [imgB, imgB2]
        (List.insertionSort colorLE
          (List.filter (fun i => !i.is_bw) [imgA, imgM, imgB, imgC, imgB2])) :=
  ⟨by decide, by decide,
    (C1_colorsort_presentation [imgA, imgM, imgB, imgC, imgB2]
        (some "b")).2.2.2.1 imgB imgB2 (by decide) (by decide)⟩

/-- C2: the anchor rotation is a pure cyclic permutation of the sorted
color sequence — some rotation, permutation (equal multisets) — and when
the scan finds the anchor at index `k` the result is the left rotation by
`k`, with the anchor first and the prior entries wrapped to the end. -/
theorem C2_anchor_rotation_cyclic (images : List AnalyzedImage) (a : String)
    (ha : a ≠ "") :
    let sortedColor :=
      List.insertionSort colorLE (images.filter fun i => !i.is_bw)
    let rotated := (colorsort images (some a)).2.1
    (∃ k, rotated = sortedColor.rotate k) ∧
      List.Perm rotated sortedColor ∧
      (rotated : Multiset AnalyzedImage) = (sortedColor : Multiset AnalyzedImage) ∧
      (∀ k, scanAnchor sortedColor a = some k →
        rotated = sortedColor.drop k ++ sortedColor.take k ∧
        ∃ img, sortedColor[k]? = some img ∧ img.name = a ∧
          rotated.head? = some img) := by
  intro sortedColor rotated
  have hrot : rotated = sortedColor.rotate (startingIndex sortedColor (some a)) := by
    simp only [rotated, colorsort_eq images (some a)]
  have hperm : List.Perm rotated sortedColor := by
    rw [hrot]; exact List.rotate_perm _ _
  refine ⟨⟨_, hrot⟩, hperm, Multiset.coe_eq_coe.mpr hperm, ?_⟩
  intro k hk
  have hki : startingIndex sortedColor (some a) = k := by
    simp [startingIndex, ha, hk]
  have hlt : k < sortedColor.length := scanAnchor_some_lt _ _ _ hk
  obtain ⟨img, himg, hname⟩ := scanAnchor_some_getElem _ _ _ hk
  have hdt : rotated = sortedColor.drop k ++ sortedColor.take k := by
    rw [hrot, hki, List.rotate_eq_drop_append_take (le_of_lt hlt)]
  refine ⟨hdt, img, himg, hname, ?_⟩
  have hdrop : (sortedColor.drop k).head? = some img := by
    rw [List.head?_drop]; exact himg
  rw [hdt, List.head?_append, hdrop]
  rfl

/-- Witness for C2: anchor "a" is found at index 1 of the sorted color
sequence `[imgC, imgA, imgB]`, and the rotation wraps `imgC` to the end. -/
theorem C2_anchor_rotation_cyclic_witness :
    scanAnchor
        (List.insertionSort colorLE
          (List.filter (fun i => !i.is_bw) [imgA, imgM, imgB, imgC])) "a"
      = some 1 ∧
      (colorsort [imgA, imgM, imgB, imgC] (some "a")).2.1
        = (List.insertionSort colorLE
            (List.filter (fun i => !i.is_bw) [imgA, imgM, imgB, imgC])).drop 1
          ++ (List.insertionSort colorLE
              (List.filter (fun i => !i.is_bw) [imgA, imgM, imgB, imgC])).take 1 :=
  ⟨by decide,
    ((C2_anchor_rotation_cyclic [imgA, imgM, imgB, imgC] "a"
        (by decide)).2.2.2 1 (by decide)).1⟩

/-- C6: an anchor matching no color image is non-fatal — `colorsort`
returns the unrotated sorted sequences (rotation index 0) and the
not-found condition is reported. -/
theorem C6_anchor_not_found_unrotated (images : List AnalyzedImage)
    (a : String) (ha : a ≠ "")
    (h : ∀ img ∈ images.filter (fun i => !i.is_bw), img.name ≠ a) :
    let sortedColor :=
      List.insertionSort colorLE (images.filter fun i => !i.is_bw)
    let sortedMono :=
      List.insertionSort valueLE (images.filter fun i => i.is_bw)
    colorsort images (some a)
        = (sortedColor ++ sortedMono, sortedColor, sortedMono) ∧
      startingIndex sortedColor (some a) = 0 ∧
      colorsort_not_found_reported images (some a) = true := by
  intro sortedColor sortedMono
  have hnone : scanAnchor sortedColor a = none :=
    (scanAnchor_eq_none_iff _ _).mpr fun img hm =>
      h img ((List.mem_insertionSort colorLE).mp hm)
  have hstart : startingIndex sortedColor (some a) = 0 := by
    simp [startingIndex, ha, hnone]
  refine ⟨?_, hstart, ?_⟩
  · rw [colorsort_eq images (some a)]
    rw [show startingIndex
        (List.insertionSort colorLE (images.filter fun i => !i.is_bw)) (some a) = 0
      from hstart]
    rw [List.rotate_zero]
  · simp [colorsort_not_found_reported, partitionLoop_eq, hnone, ha]

/-- Witness for C6: three color images named "a", "b", "c" and anchor
"z". -/
theorem C6_anchor_not_found_unrotated_witness :
    (∀ img ∈ List.filter (fun i => !i.is_bw) [imgA, imgB, imgC],
        img.name ≠ "z") ∧
      colorsort_not_found_reported [imgA, imgB, imgC] (some "z") = true :=
  ⟨by decide,
    (C6_anchor_not_found_unrotated [imgA, imgB, imgC] "z"
        (by decide) (by decide)).2.2⟩

/-- C10: an anchor naming a monochrome image is treated as not found — the
scan walks only the color sequence — so the color sequence is unrotated,
the not-found condition is reported, and the anchor image appears in the
monochrome portion of the output, not first. -/
theorem C10_monochrome_anchor_treated_not_found (images : List AnalyzedImage)
    (a : String) (ha : a ≠ "")
    (hcolor : ∀ img ∈ images.filter (fun i => !i.is_bw), img.name ≠ a)
    (img0 : AnalyzedImage) (hmem : img0 ∈ images) (hbw : img0.is_bw = true)
    (hname : img0.name = a) :
    let sortedColor :=
      List.insertionSort colorLE (images.filter fun i => !i.is_bw)
    (colorsort images (some a)).2.1 = sortedColor ∧
      colorsort_not_found_reported images (some a) = true ∧
      img0 ∈ (colorsort images (some a)).2.2 ∧
      img0 ∉ (colorsort images (some a)).2.1 ∧
      ((images.filter fun i => !i.is_bw) ≠ [] →
        (colorsort images (some a)).1.head? ≠ some img0) := by
  intro sortedColor
  have hnone : scanAnchor sortedColor a = none :=
    (scanAnchor_eq_none_iff _ _).mpr fun img hm =>
      hcolor img ((List.mem_insertionSort colorLE).mp hm)
  have hstart : startingIndex sortedColor (some a) = 0 := by
    simp [startingIndex, ha, hnone]
  have hco := colorsort_eq images (some a)
  have hcolorpart : (colorsort images (some a)).2.1 = sortedColor := by
    rw [hco]
    show sortedColor.rotate (startingIndex sortedColor (some a)) = sortedColor
    rw [hstart, List.rotate_zero]
  have hbwpart :
      (colorsort images (some a)).2.2
        = List.insertionSort valueLE (images.filter fun i => i.is_bw) := by
    rw [hco]
  refine ⟨hcolorpart, ?_, ?_, ?_, ?_⟩
  · simp [colorsort_not_found_reported, partitionLoop_eq, hnone, ha]
  · rw [hbwpart]
    exact (List.mem_insertionSort valueLE).mpr
      (List.mem_filter.mpr ⟨hmem, hbw⟩)
  · rw [hcolorpart]
    intro hmem0
    have := (List.mem_filter.mp ((List.mem_insertionSort colorLE).mp hmem0)).2
    simp [hbw] at this
  · intro hne
    have hlen : sortedColor.length ≠ 0 := by
      rw [List.length_insertionSort]
      simpa using fun hnil => hne hnil
    cases hsc : sortedColor with
    | nil => rw [hsc] at hlen; simp at hlen
    | cons x xs =>
        have hx : x ∈ sortedColor := by rw [hsc]; exact List.mem_cons_self x xs
        have hxcol :=
          (List.mem_filter.mp ((List.mem_insertionSort colorLE).mp hx)).2
        have hxne : x ≠ img0 := by
          intro hxeq
          rw [hxeq] at hxcol
          simp [hbw] at hxcol
        have hcomb : (colorsort images (some a)).1
            = sortedColor
              ++ List.insertionSort valueLE (images.filter fun i => i.is_bw) := by
          rw [hco]
          show sortedColor.rotate (startingIndex sortedColor (some a)) ++ _ = _
          rw [hstart, List.rotate_zero]
        rw [hcomb, hsc]
        simp only [List.cons_append, List.head?_cons, ne_eq, Option.some.injEq]
        exact hxne

/-- Witness for C10: anchor "m" names the monochrome image `imgM` among
two color images. -/
theorem C10_monochrome_anchor_treated_not_found_witness :
    imgM.is_bw = true ∧
      imgM ∈ (colorsort [imgA, imgM, imgB] (some "m")).2.2 ∧
      colorsort_not_found_reported [imgA, imgM, imgB] (some "m") = true ∧
      (colorsort [imgA, imgM, imgB] (some "m")).1.head? ≠ some imgM := by
  have t := C10_monochrome_anchor_treated_not_found [imgA, imgM, imgB] "m"
    (by decide) (by decide) imgM (by decide) (by decide) rfl
  exact ⟨by decide, t.2.2.1, t.2.1, t.2.2.2.2 (by decide)⟩


end ColorsortSpec
